import Mathlib

/-!
Shallow embedding of secator's `CeleryData` utility
(`src/secator/celery_utils.py`): the Celery task-result aggregator.

Modelling conventions:
* Python dicts with string keys and heterogeneous values (the per-task
  descriptors stored in `ids_map`, which double as the yielded snapshots)
  are association lists `Dict` with Python `dict.update` semantics:
  assignment overwrites an existing key in place (keeping its position)
  and appends a fresh key at the end.
* A `Record` models the opaque output records: the code only reads the
  `_type`, `_source` and `percent` attributes, so only those are kept.
* The remote side (`AsyncResult(task_id).state` / `.info`, and
  `result.ready()`) is an explicit environment parameter: a function from
  task id to the broker-reported state and payload, and a readiness flag
  per poll cycle.
* Exceptions are explicit: `get_task_data` returns the mutated descriptor
  together with an optional `FetchErr` (`remote` for `raise info`,
  `decode` for `kombu.exceptions.DecodeError`), because the in-place
  `ids_map` mutations performed before the raise survive it.
* Generators consumed synchronously are lists of the values at yield time;
  in-place mutation that outlives a yield is observable through the
  threaded `ids_map` state.
-/

/-- An output record as seen by `celery_utils`: only the `_type`,
`_source` and `percent` attributes are ever read by this module. -/
structure Record where
  rtype : String
  source : String
  percent : Int
deriving DecidableEq, Repr

/-- A Python value stored in a task-data dict: a string (states, names),
a bool (`ready`), an int (`count`, `progress`), or a list of records
(`results`). -/
inductive Val where
  | s (v : String)
  | b (v : Bool)
  | i (v : Int)
  | recs (v : List Record)
deriving DecidableEq, Repr

/-- A Python dict with string keys, in insertion order. -/
def Dict := List (String × Val)
deriving DecidableEq, Repr

/-- Dict lookup (`d[k]` / `d.get(k)`). -/
def dget (d : Dict) (k : String) : Option Val :=
  match d with
  | [] => none
  | (k', v) :: rest => if k' = k then some v else dget rest k

/-- Dict assignment `d[k] = v`: overwrite in place if the key exists
(keeping its position, as Python dicts do), else append at the end. -/
def dset (d : Dict) (k : String) (v : Val) : Dict :=
  match d with
  | [] => [(k, v)]
  | (k', v') :: rest => if k' = k then (k, v) :: rest else (k', v') :: dset rest k v

/-- `d.update(kvs)`: sequential assignment of each pair. -/
def dupdate (d : Dict) (kvs : List (String × Val)) : Dict :=
  kvs.foldl (fun a kv => dset a kv.1 kv.2) d

/-- The raw remote payload `AsyncResult(task_id).info` for one task.
Depending on the task state it is an `Exception`, a list of records, or a
metadata dict; `decodeErr` stands for `kombu.exceptions.DecodeError`
raised while deserializing the remote payload. -/
inductive Payload where
  | exn (e : String)
  | recs (l : List Record)
  | meta (kvs : List (String × Val))
  | decodeErr
deriving DecidableEq, Repr

/-- How a per-task fetch can abort: `remote e` models `raise info` for an
exception payload, `decode` models `kombu.exceptions.DecodeError`. -/
inductive FetchErr where
  | remote (e : String)
  | decode
deriving DecidableEq, Repr

/-- The terminal Celery states (line 216 of `celery_utils.py`). -/
def terminalStates : List String := ["FAILURE", "SUCCESS", "REVOKED"]

/-- Line 216 of `celery_utils.py`: `data['state'] in ['FAILURE',
'SUCCESS', 'REVOKED']`.  A non-string value under `state` (possible when
a metadata payload overwrote it) compares unequal to every state string,
as in Python. -/
def readyFlag (d : Dict) : Bool :=
  match dget d "state" with
  | some (Val.s st) => terminalStates.contains st
  | _ => false

/-- Lines 215-223 of `celery_utils.py`: set the `ready` flag from the
final `state`, force `progress` to 100 when ready, otherwise take the
percent of the last progress-flagged record of `results` (if any).
(When a metadata payload put a non-list under `results`, the Python code
would raise while iterating it; no claim exercises that case, so the
model treats it as the no-progress branch.) -/
def finishTaskData (d : Dict) : Dict :=
  let d1 := dset d "ready" (Val.b (readyFlag d))
  if readyFlag d then dset d1 "progress" (Val.i 100)
  else
    match dget d1 "results" with
    | some (Val.recs l) =>
        if l.isEmpty then d1
        else
          match (l.filter (fun r => r.rtype == "progress")).getLast? with
          | some p => dset d1 "progress" (Val.i p.percent)
          | none => d1
    | _ => d1

/-- `CeleryData.get_task_data` (lines 164-226): the environment supplies
the broker-reported `res.state` and `res.info`; `data` is the descriptor
`ids_map[task_id]`, mutated in place.  Returns the mutated descriptor
(which is both the `ids_map` entry and the returned snapshot — the same
dict object) and the error raised, if any.  The in-place
state/ready/results update happens before `res.info` is inspected, so it
survives a raise.  (On a descriptor without a `name` key Python would
raise a KeyError at the `count` line; the model compares against the
absent lookup instead, and every claim supplies a `name`.) -/
def get_task_data (resState : String) (info : Payload) (data : Dict) :
    Dict × Option FetchErr :=
  let d1 := dupdate data
    [("state", Val.s resState), ("ready", Val.b false), ("results", Val.recs [])]
  match info with
  | .decodeErr => (d1, some .decode)
  | .exn e => (d1, some (.remote e))
  | .recs l =>
      let d2 := dset d1 "results" (Val.recs l)
      let errors := l.filter (fun r => r.rtype == "error")
      let d3 := dset d2 "count"
        (Val.i (l.filter (fun c => some (Val.s c.source) == dget d2 "name")).length)
      let d4 := dset d3 "state" (Val.s (if errors.isEmpty then "SUCCESS" else "FAILURE"))
      (finishTaskData d4, none)
  | .meta kvs => (finishTaskData (dupdate d1 kvs), none)

/-- The dict keys `get_task_data` may write for a given payload (the
complement of its frame). -/
def touchedKeys : Payload → List String
  | .exn _ => ["state", "ready", "results"]
  | .decodeErr => ["state", "ready", "results"]
  | .recs _ => ["state", "ready", "results", "count", "progress"]
  | .meta kvs => ["state", "ready", "results", "progress"] ++ kvs.map Prod.fst

/-- The caller-supplied `ids_map`: task id to descriptor dict, in
insertion order. -/
def IdsMap := List (String × Dict)
deriving DecidableEq, Repr

/-- `ids_map.get(task_id)`. -/
def mget (m : IdsMap) (k : String) : Option Dict :=
  match m with
  | [] => none
  | (k', v) :: rest => if k' = k then some v else mget rest k

/-- Store the (in-place mutated) descriptor back under its task id. -/
def mset (m : IdsMap) (k : String) (v : Dict) : IdsMap :=
  match m with
  | [] => [(k, v)]
  | (k', v') :: rest => if k' = k then (k, v) :: rest else (k', v') :: mset rest k v

/-- `list(ids_map.keys())`. -/
def mkeys (m : IdsMap) : List String := m.map Prod.fst

/-- The per-task loop of `CeleryData.get_all_data` (lines 138-152): walk
the task ids, fetch-and-classify each one, yield each snapshot as it is
produced, and stop at the first raised error (snapshots yielded before
the error stay yielded, and descriptor mutations already performed stay
in `ids_map`). -/
def runTasks (f : String → String × Payload) :
    List String → IdsMap → List (String × Dict) × IdsMap × Option FetchErr
  | [], m => ([], m, none)
  | tid :: rest, m =>
      let data := (mget m tid).getD []
      let fr := f tid
      let p := get_task_data fr.1 fr.2 data
      let m' := mset m tid p.1
      match p.2 with
      | some e => ([], m', some e)
      | none =>
          let r := runTasks f rest m'
          ((tid, p.1) :: r.1, r.2.1, r.2.2)

/-- `CeleryData.get_all_data` (lines 131-162): yield every per-task
snapshot, then — only when no error interrupted the loop and at least one
snapshot was produced — compute the ready percentage and yield the last
snapshot again with its `progress` overwritten (the same dict object, so
the `ids_map` entry of the last task now carries the aggregate percent).
Returns (yielded snapshots, updated ids_map, raised error if any). -/
def get_all_data (f : String → String × Payload) (m : IdsMap) :
    List Dict × IdsMap × Option FetchErr :=
  let r := runTasks f (mkeys m) m
  let datas := r.1
  match r.2.2 with
  | some e => (datas.map Prod.snd, r.2.1, some e)
  | none =>
      match datas.getLast? with
      | none => ([], r.2.1, none)
      | some last =>
          let total := datas.length
          let countFinished := datas.countP (fun p => dget p.2 "ready" == some (Val.b true))
          let percent := if total > 0 then countFinished * 100 / total else 0
          let agg := dset last.2 "progress" (Val.i percent)
          (datas.map Prod.snd ++ [agg], mset r.2.1 last.1 agg, none)

/-- How one `CeleryData.poll` session ends in the fuel-indexed model. -/
inductive PollOutcome where
  | done
  | remoteError (e : String)
  | outOfFuel
deriving DecidableEq, Repr

/-- `CeleryData.poll` (lines 111-129), fuel-indexed.  Each cycle `k`
runs `get_all_data`; a remote exception propagates out uncaught; a
`DecodeError` is caught and the loop proceeds to the next cycle; if
`result.ready()` reports true, one extra `get_all_data` pass runs and
then the loop breaks — unless that extra pass itself raises
(`DecodeError` there skips the `break` and the loop continues).  The
environment `f k second tid` gives the broker response for task `tid` on
cycle `k` (second-pass flag `second`); `readyAt k` is `result.ready()`
on cycle `k`. -/
def poll (f : Nat → Bool → String → String × Payload) (readyAt : Nat → Bool) :
    Nat → Nat → IdsMap → List Dict × IdsMap × PollOutcome
  | 0, _, m => ([], m, .outOfFuel)
  | fuel + 1, k, m =>
      let r1 := get_all_data (f k false) m
      match r1.2.2 with
      | some (.remote e) => (r1.1, r1.2.1, .remoteError e)
      | some .decode =>
          let r := poll f readyAt fuel (k + 1) r1.2.1
          (r1.1 ++ r.1, r.2.1, r.2.2)
      | none =>
          if readyAt k then
            let r2 := get_all_data (f k true) r1.2.1
            match r2.2.2 with
            | some (.remote e) => (r1.1 ++ r2.1, r2.2.1, .remoteError e)
            | some .decode =>
                let r := poll f readyAt fuel (k + 1) r2.2.1
                (r1.1 ++ r2.1 ++ r.1, r.2.1, r.2.2)
            | none => (r1.1 ++ r2.1, r2.2.1, .done)
          else
            let r := poll f readyAt fuel (k + 1) r1.2.1
            (r1.1 ++ r.1, r.2.1, r.2.2)

/-- The merged record stream of `CeleryData.iter_results` (lines 75-76):
`yield from data['results']` for every snapshot yielded by `poll`. -/
def iter_results (snaps : List Dict) : List Record :=
  snaps.flatMap (fun d =>
    match dget d "results" with
    | some (Val.recs l) => l
    | _ => [])

/-- A Celery result handle as traversed by `CeleryData.get_task_ids`:
either a `GroupResult` (`isGroup = true`) or an `AsyncResult`
(`isGroup = false`), with its task `id`, its `children` (entries may be
`None`, modelled by `Option`; an absent or non-list `children` attribute
behaves exactly like `[]` in the traversal, so it is modelled as `[]`)
and its optional `parent` (a falsy/absent parent is `none`). -/
inductive Res where
  | mk (isGroup : Bool) (id : String) (children : List (Option Res)) (parent : Option Res)

mutual

/-- `CeleryData.get_task_ids` (lines 228-259): recursive traversal that
appends a task id to the accumulator `ids` only when it is not already
present.  The Python function mutates `ids` in place and returns `None`;
here the mutated accumulator is the return value, threaded through every
recursive call exactly as the shared list object is in Python. -/
def get_task_ids (result : Option Res) (ids : List String) : List String :=
  match result with
  | none => ids
  | some (Res.mk isGroup id children parent) =>
      let ids1 := if isGroup then get_task_ids parent ids
                  else if id ∈ ids then ids else ids ++ [id]
      let ids2 := childTaskIds children ids1
      match parent with
      | some p => get_task_ids (some p) ids2
      | none => ids2

/-- The `for child in children` loop of `get_task_ids` (lines 249-251). -/
def childTaskIds (cs : List (Option Res)) (ids : List String) : List String :=
  match cs with
  | [] => ids
  | c :: rest => childTaskIds rest (get_task_ids c ids)

end

mutual

/-- All task identifiers of a handle tree, in traversal order (an
`AsyncResult` contributes its own id, a `GroupResult` does not; children
and parent are walked like `get_task_ids` does). -/
def treeIds (result : Option Res) : List String :=
  match result with
  | none => []
  | some (Res.mk isGroup id children parent) =>
      (if isGroup then [] else [id]) ++ childTreeIds children ++
        (match parent with
         | some p => treeIds (some p)
         | none => [])

def childTreeIds (cs : List (Option Res)) : List String :=
  match cs with
  | [] => []
  | c :: rest => treeIds c ++ childTreeIds rest

end

/-- Successive calls of `get_task_ids` with the *default* `ids`
argument.  In Python the default `ids=[]` (line 229) is evaluated once
at function definition time, and `get_task_ids` mutates it in place with
`ids.append`, so every default-argument call continues from the list
accumulated by all earlier default-argument calls; folding the shared
cell through the calls embeds exactly that. -/
def defaultArgCalls (roots : List (Option Res)) : List String :=
  roots.foldl (fun cell r => get_task_ids r cell) []
/-- Concrete broker environment: t1 still running, t2 finished empty. -/
def fetchC6 : String → String × Payload :=
  fun tid => if tid = "t1" then ("RUNNING", Payload.meta []) else ("SUCCESS", Payload.recs [])

/-- Concrete two-task ids_map. -/
def mapC6 : IdsMap := [("t1", [("name", Val.s "x")]), ("t2", [("name", Val.s "y")])]

/-- Concrete environment whose cycle 0 raises a decode error on t1. -/
def fetchC7 : Nat → Bool → String → String × Payload :=
  fun k _ tid =>
    if k = 0 ∧ tid = "t1" then ("PENDING", Payload.decodeErr)
    else ("SUCCESS", Payload.recs [])

/-- Root readiness that becomes true on cycle 1. -/
def readyC7 : Nat → Bool := fun k => decide (k = 1)

/-- Concrete two-task ids_map. -/
def mapC7 : IdsMap := [("t1", [("name", Val.s "x")]), ("t2", [("name", Val.s "y")])]

/-- Concrete environment whose every fetch is an exception payload. -/
def fetchC4 : Nat → Bool → String → String × Payload :=
  fun _ _ _ => ("FAILURE", Payload.exn "boom")

/-- Root readiness that is true from the start. -/
def readyTrue : Nat → Bool := fun _ => true

/-- Concrete one-task ids_map. -/
def mapC4 : IdsMap := [("t1", [("name", Val.s "x")])]

/-- Concrete environment: every fetch reports a running task. -/
def fetchC3 : Nat → Bool → String → String × Payload :=
  fun _ _ _ => ("RUNNING", Payload.meta [])

/-- Concrete one-task ids_map. -/
def mapC3 : IdsMap := [("t", [("name", Val.s "x")])]

/-- Concrete environment whose cycle-0 second pass raises a decode error. -/
def fetchC3c : Nat → Bool → String → String × Payload :=
  fun k second _ =>
    if k = 0 ∧ second then ("RUNNING", Payload.decodeErr) else ("RUNNING", Payload.meta [])

/-- Concrete environment: every fetch returns the fixed record list `l`. -/
def fetchC1 (l : List Record) : Nat → Bool → String → String × Payload :=
  fun _ _ _ => ("SUCCESS", Payload.recs l)

/-- Concrete one-task ids_map. -/
def mapC1 : IdsMap := [("t", [("name", Val.s "x")])]

/-- The snapshot a task with payload `l` and classified state `st` settles on. -/
def snapC1 (l : List Record) (st : String) : Dict :=
  [("name", Val.s "x"), ("state", Val.s st), ("ready", Val.b true),
   ("results", Val.recs l),
   ("count", Val.i (((List.filter (fun c => some (Val.s c.source) == some (Val.s "x")) l).length
     : Nat))),
   ("progress", Val.i 100)]

/-- A leaf handle reachable twice from `rootC8`. -/
def sharedC8 : Res := Res.mk false "shared" [] none

/-- A DAG-like handle: the same child appears twice, plus a `None` child. -/
def rootC8 : Res := Res.mk false "root" [some sharedC8, none, some sharedC8] none

/-- A single-task handle with id `a`. -/
def resA10 : Res := Res.mk false "a" [] none

/-- A single-task handle with id `b`. -/
def resB10 : Res := Res.mk false "b" [] none

theorem dget_dset_self (d : Dict) (k : String) (v : Val) :
    dget (dset d k v) k = some v := by
  induction d with
  | nil => simp [dget, dset]
  | cons hd tl ih =>
      by_cases h : hd.1 = k <;> simp [dget, dset, h, ih]

theorem dget_dset_ne (d : Dict) (k k' : String) (v : Val) (h : k ≠ k') :
    dget (dset d k v) k' = dget d k' := by
  induction d with
  | nil => simp [dget, dset, h]
  | cons hd tl ih =>
      by_cases h1 : hd.1 = k
      · subst h1
        simp [dget, dset, h]
      · by_cases h2 : hd.1 = k' <;> simp [dget, dset, h1, h2, ih, Ne.symm h]

/-- The non-recursive head step of `get_task_ids` (group-parent hop or
guarded append of the task id) both extends the accumulator and keeps it
duplicate-free. -/
theorem get_task_ids_visit_aux (g : Bool) (id : String) (p : Option Res)
    (hp : ∀ ids : List String,
      (∃ t, get_task_ids p ids = ids ++ t) ∧ (ids.Nodup → (get_task_ids p ids).Nodup))
    (ids : List String) :
    (∃ t, (if g then get_task_ids p ids else if id ∈ ids then ids else ids ++ [id]) = ids ++ t) ∧
      (ids.Nodup → (if g then get_task_ids p ids else if id ∈ ids then ids else ids ++ [id]).Nodup) := by
  by_cases hg : g
  · simpa [hg] using hp ids
  · by_cases hm : id ∈ ids
    · refine ⟨⟨[], by simp [hg, hm]⟩, ?_⟩
      intro h
      simpa [hg, hm] using h
    · refine ⟨⟨[id], by simp [hg, hm]⟩, ?_⟩
      intro h
      simp only [hg, if_false, hm]
      exact List.Nodup.append h (List.nodup_singleton id) (by simp [List.disjoint_singleton, hm])

/-- Joint strong induction on handle size: `get_task_ids` and its child
loop only ever append fresh identifiers at the end of the accumulator,
and preserve `Nodup`. -/
theorem get_task_ids_strong_aux (n : Nat) :
    (∀ r : Option Res, sizeOf r ≤ n → ∀ ids : List String,
        (∃ t, get_task_ids r ids = ids ++ t) ∧ (ids.Nodup → (get_task_ids r ids).Nodup)) ∧
      (∀ cs : List (Option Res), sizeOf cs ≤ n → ∀ ids : List String,
        (∃ t, childTaskIds cs ids = ids ++ t) ∧ (ids.Nodup → (childTaskIds cs ids).Nodup)) := by
  induction n using Nat.strong_induction_on with
  | _ n ih =>
    constructor
    · intro r hr ids
      match r with
      | none => simp [get_task_ids]
      | some (Res.mk g id cs p) =>
        have hszr : sizeOf p < sizeOf (some (Res.mk g id cs p) : Option Res) := by
          simp only [Option.some.sizeOf_spec, Res.mk.sizeOf_spec]
          omega
        have hszc : sizeOf cs < sizeOf (some (Res.mk g id cs p) : Option Res) := by
          simp only [Option.some.sizeOf_spec, Res.mk.sizeOf_spec]
          omega
        have ihp := (ih (sizeOf p) (lt_of_lt_of_le hszr hr)).1 p le_rfl
        have ihc := (ih (sizeOf cs) (lt_of_lt_of_le hszc hr)).2 cs le_rfl
        obtain ⟨⟨t1, ht1⟩, hn1⟩ := get_task_ids_visit_aux g id p ihp ids
        cases p with
        | none =>
            have hbody : get_task_ids (some (Res.mk g id cs none)) ids =
                childTaskIds cs
                  (if g then get_task_ids none ids else if id ∈ ids then ids else ids ++ [id]) := by
              rw [get_task_ids.eq_def]
            obtain ⟨⟨t2, ht2⟩, hn2⟩ :=
              ihc (if g then get_task_ids none ids else if id ∈ ids then ids else ids ++ [id])
            rw [hbody]
            exact ⟨⟨t1 ++ t2, by rw [ht2, ht1, List.append_assoc]⟩, fun h => hn2 (hn1 h)⟩
        | some p' =>
            have hbody : get_task_ids (some (Res.mk g id cs (some p'))) ids =
                get_task_ids (some p')
                  (childTaskIds cs
                    (if g then get_task_ids (some p') ids
                     else if id ∈ ids then ids else ids ++ [id])) := by
              rw [get_task_ids.eq_def]
            obtain ⟨⟨t2, ht2⟩, hn2⟩ :=
              ihc (if g then get_task_ids (some p') ids else if id ∈ ids then ids else ids ++ [id])
            obtain ⟨⟨t3, ht3⟩, hn3⟩ :=
              ihp (childTaskIds cs
                (if g then get_task_ids (some p') ids else if id ∈ ids then ids else ids ++ [id]))
            rw [hbody]
            refine ⟨⟨t1 ++ (t2 ++ t3), ?_⟩, fun h => hn3 (hn2 (hn1 h))⟩
            rw [ht3, ht2, ht1]
            simp [List.append_assoc]
    · intro cs hcs ids
      match cs with
      | [] => simp [childTaskIds]
      | c :: rest =>
        have hszc : sizeOf c < sizeOf (c :: rest) := by
          simp only [List.cons.sizeOf_spec]
          omega
        have hszr : sizeOf rest < sizeOf (c :: rest) := by
          simp only [List.cons.sizeOf_spec]
          omega
        have ihc := (ih (sizeOf c) (lt_of_lt_of_le hszc hcs)).1 c le_rfl
        have ihr := (ih (sizeOf rest) (lt_of_lt_of_le hszr hcs)).2 rest le_rfl
        have hbody : childTaskIds (c :: rest) ids = childTaskIds rest (get_task_ids c ids) := by
          rw [childTaskIds.eq_def]
        obtain ⟨⟨t1, ht1⟩, hn1⟩ := ihc ids
        obtain ⟨⟨t2, ht2⟩, hn2⟩ := ihr (get_task_ids c ids)
        rw [hbody]
        exact ⟨⟨t1 ++ t2, by rw [ht2, ht1, List.append_assoc]⟩, fun h => hn2 (hn1 h)⟩

theorem mem_get_task_ids_of_mem (r : Option Res) (ids : List String) (x : String)
    (hx : x ∈ ids) : x ∈ get_task_ids r ids := by
  obtain ⟨t, ht⟩ := ((get_task_ids_strong_aux (sizeOf r)).1 r le_rfl ids).1
  rw [ht]
  exact List.mem_append_left _ hx

theorem mem_childTaskIds_of_mem (cs : List (Option Res)) (ids : List String) (x : String)
    (hx : x ∈ ids) : x ∈ childTaskIds cs ids := by
  obtain ⟨t, ht⟩ := ((get_task_ids_strong_aux (sizeOf cs)).2 cs le_rfl ids).1
  rw [ht]
  exact List.mem_append_left _ hx

theorem get_task_ids_complete_aux (n : Nat) :
    (∀ r : Option Res, sizeOf r ≤ n → ∀ ids : List String, ∀ x, x ∈ treeIds r →
      x ∈ get_task_ids r ids) ∧
    (∀ cs : List (Option Res), sizeOf cs ≤ n → ∀ ids : List String, ∀ x, x ∈ childTreeIds cs →
      x ∈ childTaskIds cs ids) := by
  induction n using Nat.strong_induction_on with
  | _ n ih =>
    constructor
    · intro r hr ids x hx
      match r with
      | none => simp [treeIds.eq_def] at hx
      | some (Res.mk g id cs p) =>
        have hszp : sizeOf p < sizeOf (some (Res.mk g id cs p) : Option Res) := by
          simp only [Option.some.sizeOf_spec, Res.mk.sizeOf_spec]
          omega
        have hszc : sizeOf cs < sizeOf (some (Res.mk g id cs p) : Option Res) := by
          simp only [Option.some.sizeOf_spec, Res.mk.sizeOf_spec]
          omega
        have ihp := (ih (sizeOf p) (lt_of_lt_of_le hszp hr)).1 p le_rfl
        have ihc := (ih (sizeOf cs) (lt_of_lt_of_le hszc hr)).2 cs le_rfl
        rw [treeIds.eq_def] at hx
        simp only [List.mem_append] at hx
        cases p with
        | none =>
            have hbody : get_task_ids (some (Res.mk g id cs none)) ids =
                childTaskIds cs
                  (if g then get_task_ids none ids else if id ∈ ids then ids else ids ++ [id]) := by
              rw [get_task_ids.eq_def]
            rw [hbody]
            rcases hx with (hx | hx) | hx
            · by_cases hg : g
              · simp [hg] at hx
              · simp only [hg, Bool.false_eq_true, if_false] at hx
                simp only [List.mem_singleton] at hx
                subst hx
                apply mem_childTaskIds_of_mem
                by_cases hm : x ∈ ids
                · simp [hg, hm]
                · simp [hg, hm]
            · exact ihc _ x hx
            · simp [treeIds.eq_def] at hx
        | some p' =>
            have hbody : get_task_ids (some (Res.mk g id cs (some p'))) ids =
                get_task_ids (some p')
                  (childTaskIds cs
                    (if g then get_task_ids (some p') ids
                     else if id ∈ ids then ids else ids ++ [id])) := by
              rw [get_task_ids.eq_def]
            rw [hbody]
            rcases hx with (hx | hx) | hx
            · by_cases hg : g
              · simp [hg] at hx
              · simp only [hg, Bool.false_eq_true, if_false] at hx
                simp only [List.mem_singleton] at hx
                subst hx
                apply mem_get_task_ids_of_mem
                apply mem_childTaskIds_of_mem
                by_cases hm : x ∈ ids
                · simp [hg, hm]
                · simp [hg, hm]
            · exact mem_get_task_ids_of_mem _ _ _ (ihc _ x hx)
            · exact ihp _ x hx
    · intro cs hcs ids x hx
      match cs with
      | [] => simp [childTreeIds.eq_def] at hx
      | c :: rest =>
        have hszc : sizeOf c < sizeOf (c :: rest) := by
          simp only [List.cons.sizeOf_spec]
          omega
        have hszr : sizeOf rest < sizeOf (c :: rest) := by
          simp only [List.cons.sizeOf_spec]
          omega
        have ihc := (ih (sizeOf c) (lt_of_lt_of_le hszc hcs)).1 c le_rfl
        have ihr := (ih (sizeOf rest) (lt_of_lt_of_le hszr hcs)).2 rest le_rfl
        have hbody : childTaskIds (c :: rest) ids = childTaskIds rest (get_task_ids c ids) := by
          rw [childTaskIds.eq_def]
        rw [hbody]
        rw [childTreeIds.eq_def] at hx
        simp only [List.mem_append] at hx
        rcases hx with hx | hx
        · exact mem_childTaskIds_of_mem _ _ _ (ihc _ x hx)
        · exact ihr _ x hx

theorem finishTaskData_frame (d : Dict) (k : String) (h1 : k ≠ "ready") (h2 : k ≠ "progress") :
    dget (finishTaskData d) k = dget d k := by
  have hready : ∀ v, dget (dset d "ready" v) k = dget d k :=
    fun v => dget_dset_ne d "ready" k v (Ne.symm h1)
  have hprog : ∀ d' v, dget (dset d' "progress" v) k = dget d' k :=
    fun d' v => dget_dset_ne d' "progress" k v (Ne.symm h2)
  unfold finishTaskData
  by_cases hr : readyFlag d = true
  · rw [if_pos hr, hprog, hready]
  · rw [if_neg hr]
    split
    · split
      · exact hready _
      · split
        · rw [hprog, hready]
        · exact hready _
    · exact hready _

theorem finishTaskData_ready (d : Dict) :
    dget (finishTaskData d) "ready" = some (Val.b (readyFlag d)) := by
  unfold finishTaskData
  by_cases hr : readyFlag d = true
  · rw [if_pos hr, dget_dset_ne _ _ _ _ (by decide), dget_dset_self]
  · rw [if_neg hr]
    split
    · split
      · exact dget_dset_self _ _ _
      · split
        · rw [dget_dset_ne _ _ _ _ (by decide), dget_dset_self]
        · exact dget_dset_self _ _ _
    · exact dget_dset_self _ _ _

theorem finishTaskData_progress_of_ready (d : Dict) (h : readyFlag d = true) :
    dget (finishTaskData d) "progress" = some (Val.i 100) := by
  unfold finishTaskData
  rw [if_pos h]
  exact dget_dset_self _ _ _

theorem dget_dupdate_not_mem (d : Dict) (kvs : List (String × Val)) (k : String)
    (h : k ∉ kvs.map Prod.fst) : dget (dupdate d kvs) k = dget d k := by
  induction kvs generalizing d with
  | nil => rfl
  | cons hd tl ih =>
      simp only [List.map_cons, List.mem_cons, not_or] at h
      have step : dupdate d (hd :: tl) = dupdate (dset d hd.1 hd.2) tl := rfl
      rw [step, ih _ h.2, dget_dset_ne _ _ _ _ (Ne.symm h.1)]

theorem filter_isEmpty_iff (l : List Record) (p : Record → Bool) :
    ((l.filter p).isEmpty = true ↔ ∀ r ∈ l, ¬ p r = true) := by
  induction l with
  | nil => simp
  | cons h t ih => by_cases hp : p h <;> simp [List.filter, hp, ih]

theorem readyFlag_iff (d : Dict) :
    readyFlag d = true ↔ ∃ st, dget d "state" = some (Val.s st) ∧ st ∈ terminalStates := by
  unfold readyFlag
  split
  · rename_i st heq
    simp [heq, List.elem_iff]
  · rename_i hne
    simp only [Bool.false_eq_true, false_iff]
    rintro ⟨st, hst, hmem⟩
    exact hne st hst

theorem finishTaskData_main (d : Dict) :
    (dget (finishTaskData d) "ready" = some (Val.b true) ↔
      ∃ st, dget (finishTaskData d) "state" = some (Val.s st) ∧ st ∈ terminalStates) ∧
    (dget (finishTaskData d) "ready" = some (Val.b true) →
      dget (finishTaskData d) "progress" = some (Val.i 100)) := by
  have hstate : dget (finishTaskData d) "state" = dget d "state" :=
    finishTaskData_frame _ _ (by decide) (by decide)
  constructor
  · rw [finishTaskData_ready, hstate, ← readyFlag_iff]
    simp
  · intro hr
    rw [finishTaskData_ready] at hr
    have hf : readyFlag d = true := by simpa using hr
    exact finishTaskData_progress_of_ready _ hf

/-- Claim C2 (amended): for every snapshot successfully returned by
`get_task_data`, `ready` is true iff the final `state` is terminal, and
`ready` implies `progress = 100` (the converse direction of the progress
biconditional fails, see the counterexample). -/
theorem C2_ready_iff_terminal (rs : String) (info : Payload) (data d : Dict)
    (h : get_task_data rs info data = (d, none)) :
    (dget d "ready" = some (Val.b true) ↔
      ∃ st, dget d "state" = some (Val.s st) ∧ st ∈ terminalStates) ∧
    (dget d "ready" = some (Val.b true) → dget d "progress" = some (Val.i 100)) := by
  have hform : ∃ d', d = finishTaskData d' := by
    cases info with
    | exn e => simp [get_task_data] at h
    | decodeErr => simp [get_task_data] at h
    | recs l =>
        simp only [get_task_data, Prod.mk.injEq] at h
        exact ⟨_, h.1.symm⟩
    | meta kvs =>
        simp only [get_task_data, Prod.mk.injEq] at h
        exact ⟨_, h.1.symm⟩
  obtain ⟨d', rfl⟩ := hform
  exact finishTaskData_main d'

theorem C2_witness :
    dget (get_task_data "SUCCESS" (Payload.recs []) [("name", Val.s "x")]).1 "progress" =
      some (Val.i 100) :=
  (C2_ready_iff_terminal "SUCCESS" (Payload.recs []) [("name", Val.s "x")]
    (get_task_data "SUCCESS" (Payload.recs []) [("name", Val.s "x")]).1 (by decide)).2 (by decide)

/-- Claim C2 counterexample: a RUNNING task whose metadata payload
carries a progress record with percent 100 gets `progress = 100` with
`ready = false`, refuting the claimed "progress is 100 iff ready". -/
theorem C2_counterexample :
    dget (get_task_data "RUNNING"
        (Payload.meta [("results", Val.recs [⟨"progress", "x", 100⟩])])
        [("name", Val.s "x")]).1 "progress" = some (Val.i 100) ∧
    dget (get_task_data "RUNNING"
        (Payload.meta [("results", Val.recs [⟨"progress", "x", 100⟩])])
        [("name", Val.s "x")]).1 "ready" = some (Val.b false) ∧
    (get_task_data "RUNNING"
        (Payload.meta [("results", Val.recs [⟨"progress", "x", 100⟩])])
        [("name", Val.s "x")]).2 = none := by decide

/-- Claim C5: classifying a record-list payload stores the list under
`results`, counts the records whose `_source` equals the descriptor's
name, and sets state FAILURE exactly when some record has
`_type == 'error'` (SUCCESS otherwise); an empty list gives SUCCESS and
count 0. -/
theorem C5_classify_list (rs nm : String) (l : List Record) (data : Dict)
    (hname : dget data "name" = some (Val.s nm)) :
    (get_task_data rs (Payload.recs l) data).2 = none ∧
    dget (get_task_data rs (Payload.recs l) data).1 "results" = some (Val.recs l) ∧
    dget (get_task_data rs (Payload.recs l) data).1 "count" =
      some (Val.i (l.filter (fun c => c.source == nm)).length) ∧
    dget (get_task_data rs (Payload.recs l) data).1 "state" =
      some (Val.s (if ∃ r ∈ l, r.rtype = "error" then "FAILURE" else "SUCCESS")) ∧
    (l = [] →
      dget (get_task_data rs (Payload.recs l) data).1 "state" = some (Val.s "SUCCESS") ∧
      dget (get_task_data rs (Payload.recs l) data).1 "count" = some (Val.i 0)) := by
  have h2 : dget (dset (dupdate data
      [("state", Val.s rs), ("ready", Val.b false), ("results", Val.recs [])])
      "results" (Val.recs l)) "name" = some (Val.s nm) := by
    rw [dget_dset_ne _ _ _ _ (by decide), dget_dupdate_not_mem _ _ _ (by simp)]
    exact hname
  have hcong : l.filter (fun c => some (Val.s c.source) == some (Val.s nm)) =
      l.filter (fun c => c.source == nm) := by
    apply List.filter_congr
    intro c hc
    by_cases h : c.source = nm <;> simp [h]
  have hres : dget (get_task_data rs (Payload.recs l) data).1 "results" = some (Val.recs l) := by
    simp only [get_task_data]
    rw [finishTaskData_frame _ _ (by decide) (by decide), dget_dset_ne _ _ _ _ (by decide),
      dget_dset_ne _ _ _ _ (by decide), dget_dset_self]
  have hcount : dget (get_task_data rs (Payload.recs l) data).1 "count" =
      some (Val.i (l.filter (fun c => c.source == nm)).length) := by
    simp only [get_task_data]
    rw [finishTaskData_frame _ _ (by decide) (by decide), dget_dset_ne _ _ _ _ (by decide),
      dget_dset_self]
    simp only [h2, hcong]
  have hstate : dget (get_task_data rs (Payload.recs l) data).1 "state" =
      some (Val.s (if ∃ r ∈ l, r.rtype = "error" then "FAILURE" else "SUCCESS")) := by
    simp only [get_task_data]
    rw [finishTaskData_frame _ _ (by decide) (by decide), dget_dset_self]
    have hemp : (l.filter (fun r => r.rtype == "error")).isEmpty = true ↔
        ¬ (∃ r ∈ l, r.rtype = "error") := by
      rw [filter_isEmpty_iff]
      simp
    by_cases hA : ∃ r ∈ l, r.rtype = "error"
    · have hb : (l.filter (fun r => r.rtype == "error")).isEmpty = false :=
        Bool.eq_false_iff.mpr (fun ht => (hemp.mp ht) hA)
      simp [hb, hA]
    · have hb : (l.filter (fun r => r.rtype == "error")).isEmpty = true := hemp.mpr hA
      simp [hb, hA]
  refine ⟨by simp [get_task_data], hres, hcount, hstate, ?_⟩
  rintro rfl
  refine ⟨by simpa using hstate, by simpa using hcount⟩

theorem C5_witness :
    dget (get_task_data "SUCCESS" (Payload.recs [⟨"ip", "nmap", 0⟩, ⟨"error", "other", 0⟩])
        [("name", Val.s "nmap")]).1 "state" = some (Val.s "FAILURE") := by
  have h := C5_classify_list "SUCCESS" "nmap" [⟨"ip", "nmap", 0⟩, ⟨"error", "other", 0⟩]
    [("name", Val.s "nmap")] (by decide)
  rw [h.2.2.2.1]
  simp

/-- Claim C9 (amended): `get_task_data` mutates the caller's descriptor
well beyond `state` — it always overwrites `state`, `ready` and
`results`, and may write `count`, `progress` and every key of a dict
payload; but any key outside `touchedKeys info` keeps its value. -/
theorem C9_descriptor_frame (rs : String) (info : Payload) (data : Dict) (k : String)
    (hk : k ∉ touchedKeys info) :
    dget (get_task_data rs info data).1 k = dget data k := by
  cases info with
  | exn e =>
      simp only [touchedKeys, List.mem_cons, List.not_mem_nil, or_false, not_or] at hk
      simp only [get_task_data]
      exact dget_dupdate_not_mem _ _ _ (by simp [hk.1, hk.2.1, hk.2.2])
  | decodeErr =>
      simp only [touchedKeys, List.mem_cons, List.not_mem_nil, or_false, not_or] at hk
      simp only [get_task_data]
      exact dget_dupdate_not_mem _ _ _ (by simp [hk.1, hk.2.1, hk.2.2])
  | recs l =>
      simp only [touchedKeys, List.mem_cons, List.not_mem_nil, or_false, not_or] at hk
      obtain ⟨h1, h2, h3, h4, h5⟩ := hk
      simp only [get_task_data]
      rw [finishTaskData_frame _ _ h2 h5, dget_dset_ne _ _ _ _ (Ne.symm h1),
        dget_dset_ne _ _ _ _ (Ne.symm h4), dget_dset_ne _ _ _ _ (Ne.symm h3),
        dget_dupdate_not_mem _ _ _ (by simp [h1, h2, h3])]
  | meta kvs =>
      simp only [touchedKeys, List.mem_append, List.mem_cons, List.not_mem_nil, or_false,
        not_or] at hk
      obtain ⟨⟨h1, h2, h3, h4⟩, h5⟩ := hk
      simp only [get_task_data]
      rw [finishTaskData_frame _ _ h2 h4, dget_dupdate_not_mem _ _ _ h5,
        dget_dupdate_not_mem _ _ _ (by simp [h1, h2, h3])]

theorem C9_witness :
    dget (get_task_data "PENDING" (Payload.meta []) [("descr", Val.s "d")]).1 "descr" =
      some (Val.s "d") := by
  have h := C9_descriptor_frame "PENDING" (Payload.meta []) [("descr", Val.s "d")] "descr"
    (by decide)
  rw [h]
  decide

/-- Claim C9 counterexample: on a descriptor that only has a `name` key,
one `get_task_data` call adds a `ready` key (among others), so the
descriptor is not left unchanged except for `state`. -/
theorem C9_counterexample :
    dget ([("name", Val.s "x")] : Dict) "ready" = none ∧
    dget (get_task_data "PENDING" (Payload.meta []) [("name", Val.s "x")]).1 "ready" =
      some (Val.b false) := by decide

/-- Claim C6 (amended): after the per-task snapshots of an error-free
cycle with at least one snapshot, one aggregate snapshot is emitted: the
*last per-task snapshot itself* with its `progress` overwritten by
`count(ready) * 100 / total` (integer division).  It is not a clone: the
same dict is stored back in `ids_map`, so after the cycle the last
task's descriptor carries the aggregate percent. -/
theorem C6_aggregate (f : String → String × Payload) (m : IdsMap)
    (pairs : List (String × Dict)) (m1 : IdsMap) (lid : String) (ld : Dict)
    (hrun : runTasks f (mkeys m) m = (pairs, m1, none))
    (hlast : pairs.getLast? = some (lid, ld)) :
    get_all_data f m =
      (pairs.map Prod.snd ++
        [dset ld "progress"
          (Val.i (((pairs.countP (fun p => dget p.2 "ready" == some (Val.b true))) * 100 /
            pairs.length : Nat)))],
       mset m1 lid
        (dset ld "progress"
          (Val.i (((pairs.countP (fun p => dget p.2 "ready" == some (Val.b true))) * 100 /
            pairs.length : Nat)))),
       none) := by
  have hlen : 0 < pairs.length := by
    cases pairs with
    | nil => simp at hlast
    | cons a b => simp
  unfold get_all_data
  rw [hrun]
  simp only [hlast, hlen, if_pos, gt_iff_lt]

theorem C6_witness :
    runTasks fetchC6 (mkeys mapC6) mapC6 =
      ([("t1", [("name", Val.s "x"), ("state", Val.s "RUNNING"), ("ready", Val.b false),
                ("results", Val.recs [])]),
        ("t2", [("name", Val.s "y"), ("state", Val.s "SUCCESS"), ("ready", Val.b true),
                ("results", Val.recs []), ("count", Val.i 0), ("progress", Val.i 100)])],
       [("t1", [("name", Val.s "x"), ("state", Val.s "RUNNING"), ("ready", Val.b false),
                ("results", Val.recs [])]),
        ("t2", [("name", Val.s "y"), ("state", Val.s "SUCCESS"), ("ready", Val.b true),
                ("results", Val.recs []), ("count", Val.i 0), ("progress", Val.i 100)])],
       none) ∧
    get_all_data fetchC6 mapC6 =
      ([[("name", Val.s "x"), ("state", Val.s "RUNNING"), ("ready", Val.b false),
         ("results", Val.recs [])],
        [("name", Val.s "y"), ("state", Val.s "SUCCESS"), ("ready", Val.b true),
         ("results", Val.recs []), ("count", Val.i 0), ("progress", Val.i 100)],
        [("name", Val.s "y"), ("state", Val.s "SUCCESS"), ("ready", Val.b true),
         ("results", Val.recs []), ("count", Val.i 0), ("progress", Val.i 50)]],
       [("t1", [("name", Val.s "x"), ("state", Val.s "RUNNING"), ("ready", Val.b false),
                ("results", Val.recs [])]),
        ("t2", [("name", Val.s "y"), ("state", Val.s "SUCCESS"), ("ready", Val.b true),
                ("results", Val.recs []), ("count", Val.i 0), ("progress", Val.i 50)])],
       none) := by
  constructor
  · decide
  · have h := C6_aggregate fetchC6 mapC6
      [("t1", [("name", Val.s "x"), ("state", Val.s "RUNNING"), ("ready", Val.b false),
               ("results", Val.recs [])]),
       ("t2", [("name", Val.s "y"), ("state", Val.s "SUCCESS"), ("ready", Val.b true),
               ("results", Val.recs []), ("count", Val.i 0), ("progress", Val.i 100)])]
      [("t1", [("name", Val.s "x"), ("state", Val.s "RUNNING"), ("ready", Val.b false),
               ("results", Val.recs [])]),
       ("t2", [("name", Val.s "y"), ("state", Val.s "SUCCESS"), ("ready", Val.b true),
               ("results", Val.recs []), ("count", Val.i 0), ("progress", Val.i 100)])]
      "t2"
      [("name", Val.s "y"), ("state", Val.s "SUCCESS"), ("ready", Val.b true),
       ("results", Val.recs []), ("count", Val.i 0), ("progress", Val.i 100)]
      (by decide) (by decide)
    rw [h]
    decide

/-- Claim C6 counterexample: in a two-task cycle (t1 running, t2
finished) the finished task's snapshot is emitted with `progress` 100,
the aggregate re-emits the same dict with `progress` 50, and the stored
descriptor of t2 now carries 50 — the "clone" the claim requires would
have left it at 100. -/
theorem C6_counterexample :
    ((get_all_data fetchC6 mapC6).1.map (fun d => dget d "progress")) =
      [none, some (Val.i 100), some (Val.i 50)] ∧
    (mget (get_all_data fetchC6 mapC6).2.1 "t2").map (fun d => dget d "progress") =
      some (some (Val.i 50)) := by decide

/-- Claim C7 (amended): a decode error during a cycle aborts that cycle
at the failing identifier: the snapshots fetched before it were already
yielded, but no aggregate snapshot is emitted for that cycle; `poll`
catches the error and continues with the next cycle, so a decode error
never terminates the loop by itself. -/
theorem C7_decode_cycle (f : Nat → Bool → String → String × Payload) (readyAt : Nat → Bool)
    (fuel k : Nat) (m : IdsMap) (o1 : List Dict) (m1 : IdsMap)
    (hgad : get_all_data (f k false) m = (o1, m1, some FetchErr.decode)) :
    (∃ pairs, runTasks (f k false) (mkeys m) m = (pairs, m1, some FetchErr.decode) ∧
        o1 = pairs.map Prod.snd) ∧
    poll f readyAt (fuel + 1) k m =
      (o1 ++ (poll f readyAt fuel (k + 1) m1).1, (poll f readyAt fuel (k + 1) m1).2.1,
        (poll f readyAt fuel (k + 1) m1).2.2) := by
  constructor
  · unfold get_all_data at hgad
    rcases hrt : runTasks (f k false) (mkeys m) m with ⟨pairs, m1', err⟩
    rw [hrt] at hgad
    cases err with
    | some e =>
        simp only [Prod.mk.injEq, Option.some.injEq] at hgad
        obtain ⟨h1, h2, h3⟩ := hgad
        subst h2
        subst h3
        exact ⟨pairs, rfl, h1.symm⟩
    | none =>
        rcases hlast : pairs.getLast? with _ | last
        · simp [hlast] at hgad
        · simp [hlast] at hgad
  · rw [poll]
    rw [hgad]

theorem C7_witness :
    poll fetchC7 readyC7 1 0 mapC7 =
      ([],
       [("t1", [("name", Val.s "x"), ("state", Val.s "PENDING"), ("ready", Val.b false),
                ("results", Val.recs [])]),
        ("t2", [("name", Val.s "y")])],
       PollOutcome.outOfFuel) := by
  have h := C7_decode_cycle fetchC7 readyC7 0 0 mapC7 []
    [("t1", [("name", Val.s "x"), ("state", Val.s "PENDING"), ("ready", Val.b false),
             ("results", Val.recs [])]),
     ("t2", [("name", Val.s "y")])]
    (by decide)
  rw [h.2]
  decide

/-- Claim C7 counterexample: a decode error on the first identifier of
cycle 0 makes that cycle yield nothing at all — in particular no
synthetic aggregate snapshot — even though a later error-free cycle
still finishes the loop.  The claim's "the aggregate snapshot is still
emitted" fails. -/
theorem C7_counterexample :
    (get_all_data (fetchC7 0 false) mapC7).1 = [] ∧
    (get_all_data (fetchC7 0 false) mapC7).2.2 = some FetchErr.decode ∧
    (poll fetchC7 readyC7 3 0 mapC7).2.2 = PollOutcome.done := by decide

/-- Claim C4 (amended): an exception payload makes `get_task_data` raise
it after having written only the broker-reported state (plus the ready
and results resets) into the descriptor — no `error` field is set and no
FAILURE is forced; `poll` catches only decode errors, so the exception
propagates out of the generator and ends the session. -/
theorem C4_exception (rs e : String) (data : Dict)
    (f : Nat → Bool → String → String × Payload) (readyAt : Nat → Bool)
    (fuel k : Nat) (m : IdsMap) (o1 : List Dict) (m1 : IdsMap)
    (hgad : get_all_data (f k false) m = (o1, m1, some (FetchErr.remote e))) :
    get_task_data rs (Payload.exn e) data =
      (dupdate data [("state", Val.s rs), ("ready", Val.b false), ("results", Val.recs [])],
        some (FetchErr.remote e)) ∧
    (dget data "error" = none →
      dget (get_task_data rs (Payload.exn e) data).1 "error" = none) ∧
    poll f readyAt (fuel + 1) k m = (o1, m1, PollOutcome.remoteError e) := by
  refine ⟨rfl, ?_, ?_⟩
  · intro h
    simp only [get_task_data]
    rw [dget_dupdate_not_mem _ _ _ (by simp)]
    exact h
  · rw [poll]
    rw [hgad]

theorem C4_witness :
    poll fetchC4 readyTrue 1 0 mapC4 =
      ([],
       [("t1", [("name", Val.s "x"), ("state", Val.s "FAILURE"), ("ready", Val.b false),
                ("results", Val.recs [])])],
       PollOutcome.remoteError "boom") := by
  have h := C4_exception "FAILURE" "boom" [("name", Val.s "x")] fetchC4 readyTrue 0 0 mapC4 []
    [("t1", [("name", Val.s "x"), ("state", Val.s "FAILURE"), ("ready", Val.b false),
             ("results", Val.recs [])])]
    (by decide)
  exact h.2.2

/-- Claim C4 counterexample: for an exception payload the code raises
without setting any `error` field on the snapshot (and without the
classifier forcing the state): the claim's "classification sets ... the
snapshot's error field" fails. -/
theorem C4_counterexample :
    dget (get_task_data "FAILURE" (Payload.exn "boom") [("name", Val.s "x")]).1 "error" =
      none ∧
    (get_task_data "FAILURE" (Payload.exn "boom") [("name", Val.s "x")]).2 =
      some (FetchErr.remote "boom") := by decide

/-- Claim C3 (amended): `poll` ends normally only at a cycle where the
root handle reported ready (so if the root never reports ready the loop
never ends normally), and at a ready cycle whose two passes raise no
decode error it performs exactly one additional full pass and stops.
When a decode error strikes one of the ready cycle's passes, the break
is skipped and the loop continues (see the counterexample), which is the
one deviation from the claim as stated. -/
theorem C3_termination (f : Nat → Bool → String → String × Payload) (readyAt : Nat → Bool) :
    (∀ fuel k m, (poll f readyAt fuel k m).2.2 = PollOutcome.done → ∃ j, readyAt j = true) ∧
    ((∀ j, readyAt j = false) →
      ∀ fuel k m, (poll f readyAt fuel k m).2.2 ≠ PollOutcome.done) ∧
    (∀ fuel k m, readyAt k = true →
      (get_all_data (f k false) m).2.2 = none →
      (get_all_data (f k true) (get_all_data (f k false) m).2.1).2.2 = none →
      poll f readyAt (fuel + 1) k m =
        ((get_all_data (f k false) m).1 ++
            (get_all_data (f k true) (get_all_data (f k false) m).2.1).1,
          (get_all_data (f k true) (get_all_data (f k false) m).2.1).2.1,
          PollOutcome.done)) := by
  have main : ∀ fuel k m,
      (poll f readyAt fuel k m).2.2 = PollOutcome.done → ∃ j, readyAt j = true := by
    intro fuel
    induction fuel with
    | zero =>
        intro k m h
        simp [poll] at h
    | succ n ih =>
        intro k m h
        simp only [poll] at h
        rcases hE1 : (get_all_data (f k false) m).2.2 with _ | fe1
        · rw [hE1] at h
          by_cases hra : readyAt k = true
          · exact ⟨k, hra⟩
          · simp only [hra, if_false] at h
            exact ih _ _ h
        · cases fe1 with
          | remote e =>
              rw [hE1] at h
              simp at h
          | decode =>
              rw [hE1] at h
              exact ih _ _ h
  refine ⟨main, ?_, ?_⟩
  · intro hnever fuel k m h
    obtain ⟨j, hj⟩ := main fuel k m h
    rw [hnever j] at hj
    exact Bool.false_ne_true hj
  · intro fuel k m hra h1 h2
    simp only [poll, h1, hra, if_true, h2]

theorem C3_witness :
    poll fetchC3 readyTrue 1 0 mapC3 =
      ([[("name", Val.s "x"), ("state", Val.s "RUNNING"), ("ready", Val.b false),
         ("results", Val.recs [])],
        [("name", Val.s "x"), ("state", Val.s "RUNNING"), ("ready", Val.b false),
         ("results", Val.recs []), ("progress", Val.i 0)],
        [("name", Val.s "x"), ("state", Val.s "RUNNING"), ("ready", Val.b false),
         ("results", Val.recs []), ("progress", Val.i 0)],
        [("name", Val.s "x"), ("state", Val.s "RUNNING"), ("ready", Val.b false),
         ("results", Val.recs []), ("progress", Val.i 0)]],
       [("t", [("name", Val.s "x"), ("state", Val.s "RUNNING"), ("ready", Val.b false),
               ("results", Val.recs []), ("progress", Val.i 0)])],
       PollOutcome.done) := by
  have h := (C3_termination fetchC3 readyTrue).2.2 0 0 mapC3 rfl (by decide) (by decide)
  rw [h]
  decide

/-- Claim C3 counterexample: the root reports ready from cycle 0 on, but
a decode error in the ready cycle's extra pass skips the `break`, so the
loop does not stop after that one additional pass (fuel 1 runs out); it
only ends on the next cycle.  "One additional full pass and then stops"
fails as stated. -/
theorem C3_counterexample :
    readyTrue 0 = true ∧
    (poll fetchC3c readyTrue 1 0 mapC3).2.2 = PollOutcome.outOfFuel ∧
    (poll fetchC3c readyTrue 2 0 mapC3).2.2 = PollOutcome.done := by decide

theorem runTasks_nil (f : String → String × Payload) (m : IdsMap) :
    runTasks f [] m = ([], m, none) := rfl

theorem runTasks_cons_ok (f : String → String × Payload) (tid : String) (rest : List String)
    (m : IdsMap) (d : Dict)
    (h : get_task_data (f tid).1 (f tid).2 ((mget m tid).getD []) = (d, none)) :
    runTasks f (tid :: rest) m =
      ((tid, d) :: (runTasks f rest (mset m tid d)).1,
       (runTasks f rest (mset m tid d)).2.1,
       (runTasks f rest (mset m tid d)).2.2) := by
  simp only [runTasks]
  rw [h]

theorem get_all_data_ok (f : String → String × Payload) (m : IdsMap)
    (pairs : List (String × Dict)) (m1 : IdsMap) (lid : String) (ld : Dict)
    (hrun : runTasks f (mkeys m) m = (pairs, m1, none))
    (hlast : pairs.getLast? = some (lid, ld)) :
    get_all_data f m =
      (pairs.map Prod.snd ++
        [dset ld "progress"
          (Val.i (((pairs.countP (fun p => dget p.2 "ready" == some (Val.b true))) * 100 /
            pairs.length : Nat)))],
       mset m1 lid
        (dset ld "progress"
          (Val.i (((pairs.countP (fun p => dget p.2 "ready" == some (Val.b true))) * 100 /
            pairs.length : Nat)))),
       none) := by
  have hlen : 0 < pairs.length := by
    cases pairs with
    | nil => simp at hlast
    | cons a b => simp
  unfold get_all_data
  rw [hrun]
  simp only [hlast, hlen, if_pos, gt_iff_lt]

theorem poll_step_notReady_ok (f : Nat → Bool → String → String × Payload)
    (ra : Nat → Bool) (fuel k : Nat) (m : IdsMap) (o1 : List Dict) (m1 : IdsMap)
    (hgad : get_all_data (f k false) m = (o1, m1, none)) (hra : ra k = false) :
    poll f ra (fuel + 1) k m =
      (o1 ++ (poll f ra fuel (k + 1) m1).1, (poll f ra fuel (k + 1) m1).2.1,
        (poll f ra fuel (k + 1) m1).2.2) := by
  rw [poll, hgad]
  simp only [hra, Bool.false_eq_true, if_false]

theorem poll_step_ready_ok (f : Nat → Bool → String → String × Payload)
    (ra : Nat → Bool) (fuel k : Nat) (m : IdsMap) (o1 : List Dict) (m1 : IdsMap)
    (o2 : List Dict) (m2 : IdsMap)
    (h1 : get_all_data (f k false) m = (o1, m1, none))
    (hra : ra k = true)
    (h2 : get_all_data (f k true) m1 = (o2, m2, none)) :
    poll f ra (fuel + 1) k m = (o1 ++ o2, m2, PollOutcome.done) := by
  rw [poll, h1]
  simp only [hra, if_true, h2]

theorem C1_session (l : List Record) (st : String)
    (hst : (if (List.filter (fun r => r.rtype == "error") l).isEmpty = true
        then "SUCCESS" else "FAILURE") = st)
    (hterm : terminalStates.contains st = true) :
    poll (fetchC1 l) readyC7 2 0 mapC1 =
      ([snapC1 l st, snapC1 l st, snapC1 l st, snapC1 l st, snapC1 l st, snapC1 l st],
       [("t", snapC1 l st)], PollOutcome.done) := by
  have hbase1 : get_task_data "SUCCESS" (Payload.recs l) [("name", Val.s "x")] =
      (finishTaskData
        [("name", Val.s "x"),
         ("state", Val.s (if (List.filter (fun r => r.rtype == "error") l).isEmpty = true
            then "SUCCESS" else "FAILURE")),
         ("ready", Val.b false), ("results", Val.recs l),
         ("count", Val.i (((List.filter (fun c => some (Val.s c.source) == some (Val.s "x"))
            l).length : Nat)))],
        none) := rfl
  rw [hst] at hbase1
  have hrf1 : readyFlag
      [("name", Val.s "x"), ("state", Val.s st), ("ready", Val.b false),
       ("results", Val.recs l),
       ("count", Val.i (((List.filter (fun c => some (Val.s c.source) == some (Val.s "x"))
          l).length : Nat)))] = true := hterm
  have hfin1 : finishTaskData
      [("name", Val.s "x"), ("state", Val.s st), ("ready", Val.b false),
       ("results", Val.recs l),
       ("count", Val.i (((List.filter (fun c => some (Val.s c.source) == some (Val.s "x"))
          l).length : Nat)))] = snapC1 l st := by
    simp only [finishTaskData]
    rw [hrf1]
    rfl
  rw [hfin1] at hbase1
  have hbase2 : get_task_data "SUCCESS" (Payload.recs l) (snapC1 l st) =
      (finishTaskData
        [("name", Val.s "x"),
         ("state", Val.s (if (List.filter (fun r => r.rtype == "error") l).isEmpty = true
            then "SUCCESS" else "FAILURE")),
         ("ready", Val.b false), ("results", Val.recs l),
         ("count", Val.i (((List.filter (fun c => some (Val.s c.source) == some (Val.s "x"))
            l).length : Nat))),
         ("progress", Val.i 100)],
        none) := rfl
  rw [hst] at hbase2
  have hrf2 : readyFlag
      [("name", Val.s "x"), ("state", Val.s st), ("ready", Val.b false),
       ("results", Val.recs l),
       ("count", Val.i (((List.filter (fun c => some (Val.s c.source) == some (Val.s "x"))
          l).length : Nat))),
       ("progress", Val.i 100)] = true := hterm
  have hfin2 : finishTaskData
      [("name", Val.s "x"), ("state", Val.s st), ("ready", Val.b false),
       ("results", Val.recs l),
       ("count", Val.i (((List.filter (fun c => some (Val.s c.source) == some (Val.s "x"))
          l).length : Nat))),
       ("progress", Val.i 100)] = snapC1 l st := by
    simp only [finishTaskData]
    rw [hrf2]
    rfl
  rw [hfin2] at hbase2
  have hrt1 : runTasks (fetchC1 l 0 false) ["t"] mapC1 =
      ([("t", snapC1 l st)], [("t", snapC1 l st)], none) := by
    rw [runTasks_cons_ok (fetchC1 l 0 false) "t" [] mapC1 (snapC1 l st) hbase1]
    rfl
  have hgad1 : get_all_data (fetchC1 l 0 false) mapC1 =
      ([snapC1 l st, snapC1 l st], [("t", snapC1 l st)], none) := by
    rw [get_all_data_ok (fetchC1 l 0 false) mapC1 [("t", snapC1 l st)] [("t", snapC1 l st)]
      "t" (snapC1 l st) hrt1 rfl]
    have hp : ((List.countP (fun p => dget p.2 "ready" == some (Val.b true))
        [("t", snapC1 l st)]) * 100 / [("t", snapC1 l st)].length : Nat) = 100 := by
      have hc : List.countP (fun p => dget p.2 "ready" == some (Val.b true))
          [("t", snapC1 l st)] = 1 := rfl
      rw [hc]
      simp
    rw [hp]
    rfl
  have hrt2 : runTasks (fetchC1 l 1 false) ["t"] [("t", snapC1 l st)] =
      ([("t", snapC1 l st)], [("t", snapC1 l st)], none) := by
    rw [runTasks_cons_ok (fetchC1 l 1 false) "t" [] [("t", snapC1 l st)] (snapC1 l st) hbase2]
    rfl
  have hgad2 : get_all_data (fetchC1 l 1 false) [("t", snapC1 l st)] =
      ([snapC1 l st, snapC1 l st], [("t", snapC1 l st)], none) := by
    rw [get_all_data_ok (fetchC1 l 1 false) [("t", snapC1 l st)] [("t", snapC1 l st)]
      [("t", snapC1 l st)] "t" (snapC1 l st) hrt2 rfl]
    have hp : ((List.countP (fun p => dget p.2 "ready" == some (Val.b true))
        [("t", snapC1 l st)]) * 100 / [("t", snapC1 l st)].length : Nat) = 100 := by
      have hc : List.countP (fun p => dget p.2 "ready" == some (Val.b true))
          [("t", snapC1 l st)] = 1 := rfl
      rw [hc]
      simp
    rw [hp]
    rfl
  have hpoll2 : poll (fetchC1 l) readyC7 1 1 [("t", snapC1 l st)] =
      ([snapC1 l st, snapC1 l st] ++ [snapC1 l st, snapC1 l st],
       [("t", snapC1 l st)], PollOutcome.done) :=
    poll_step_ready_ok (fetchC1 l) readyC7 0 1 [("t", snapC1 l st)] _ _ _ _ hgad2 rfl hgad2
  have hpoll1 := poll_step_notReady_ok (fetchC1 l) readyC7 1 0 mapC1
    [snapC1 l st, snapC1 l st] [("t", snapC1 l st)] hgad1 rfl
  rw [hpoll1, hpoll2]
  rfl

/-- Claim C1 (amended): the merged record stream de-duplicates nothing.
A finished task's full result list is re-fetched and re-yielded on every
cycle, and each cycle's aggregate snapshot shares the last per-task
snapshot's `results`, so in a session over a single task whose payload
stays the record list `l` (ready on cycle 1, hence cycles 0 and 1 plus
the final extra pass) every record of `l` is emitted six times, not at
most once. -/
theorem C1_re_emission (l : List Record) :
    iter_results (poll (fetchC1 l) readyC7 2 0 mapC1).1 = l ++ l ++ l ++ l ++ l ++ l := by
  by_cases hE : (List.filter (fun r => r.rtype == "error") l).isEmpty = true
  · have h := C1_session l "SUCCESS" (by rw [hE]; rfl) (by decide)
    rw [h]
    have hres : dget (snapC1 l "SUCCESS") "results" = some (Val.recs l) := rfl
    simp [iter_results, hres]
  · simp only [Bool.not_eq_true] at hE
    have h := C1_session l "FAILURE" (by rw [hE]; rfl) (by decide)
    rw [h]
    have hres : dget (snapC1 l "FAILURE") "results" = some (Val.recs l) := rfl
    simp [iter_results, hres]

/-- Claim C1 counterexample: with a single record payload, that record
appears six times in the merged stream of one short session — the
claimed "each record at most once" fails. -/
theorem C1_counterexample :
    1 < (iter_results (poll (fetchC1 [⟨"ip", "x", 0⟩]) readyC7 2 0 mapC1).1).count
      ⟨"ip", "x", 0⟩ := by decide

/-- Claim C8: `get_task_ids` never appends an identifier that is already
in the accumulated list: starting from a duplicate-free accumulator the
result is duplicate-free, the old accumulator is only extended at the
end (revisits are no-ops), and every identifier of the tree — DAG-shared
subtrees and `None` children included — is collected; together, each
tree identifier occurs exactly once in the result. -/
theorem C8_no_duplicates (r : Option Res) (ids : List String) (h : ids.Nodup) :
    (get_task_ids r ids).Nodup ∧ (∃ t, get_task_ids r ids = ids ++ t) ∧
      ∀ x ∈ treeIds r, x ∈ get_task_ids r ids :=
  ⟨((get_task_ids_strong_aux (sizeOf r)).1 r le_rfl ids).2 h,
   ((get_task_ids_strong_aux (sizeOf r)).1 r le_rfl ids).1,
   fun x hx => (get_task_ids_complete_aux (sizeOf r)).1 r le_rfl ids x hx⟩

theorem C8_witness :
    get_task_ids (some rootC8) ["seen"] = ["seen", "root", "shared"] ∧
    ((get_task_ids (some rootC8) ["seen"]).Nodup ∧
      (∃ t, get_task_ids (some rootC8) ["seen"] = ["seen"] ++ t) ∧
      ∀ x ∈ treeIds (some rootC8), x ∈ get_task_ids (some rootC8) ["seen"]) :=
  ⟨by simp [get_task_ids, childTaskIds, rootC8, sharedC8],
   C8_no_duplicates (some rootC8) ["seen"] (by decide)⟩

/-- Claim C10: the Python default accumulator `ids=[]` is one shared
mutable list, so consecutive default-argument calls chain: the second
call starts from (and extends) what the first call accumulated, and its
accumulated list differs from the one a fresh default-argument call on
the same root produces. -/
theorem C10_shared_default :
    defaultArgCalls [some resA10, some resB10] =
      get_task_ids (some resB10) (get_task_ids (some resA10) []) ∧
    defaultArgCalls [some resA10, some resB10] = ["a", "b"] ∧
    defaultArgCalls [some resB10] = ["b"] ∧
    defaultArgCalls [some resA10, some resB10] ≠ defaultArgCalls [some resB10] := by
  have h1 : defaultArgCalls [some resA10, some resB10] = ["a", "b"] := by
    simp [defaultArgCalls, get_task_ids, childTaskIds, resA10, resB10]
  have h2 : defaultArgCalls [some resB10] = ["b"] := by
    simp [defaultArgCalls, get_task_ids, childTaskIds, resB10]
  refine ⟨rfl, h1, h2, ?_⟩
  rw [h1, h2]
  decide
